import Mathlib

/-
Shallow embedding of the multi-session streaming chat client in
src/ask_cbioportal/web/static/app.js.

Conventions of the embedding:
  - JS strings become Lean String (ASCII inputs; the JS whitespace class is
    modelled by jsWhitespace below).
  - The per-session mutable object `sessions[sessionId]` becomes the Session
    structure; the JS field `pendingContent`, which starts out undefined and is
    lazily initialised to the empty string, is modelled as a String that starts
    empty (JS truthiness of a string is equality with the empty string).
  - DOM nodes are modelled only through the data the code itself stores on
    them: `messageDiv.rawContent` and the markdown text that is handed to the
    black-box renderer `marked.parse` (field displayedSource below).  marked,
    hljs and Plotly are black boxes per the specification, so properties are
    stated about the text that reaches them.
  - Wall-clock values (Date.now in the spinner animation delay) are passed in
    as an explicit argument; the specification declares them cosmetic.
  - Recursion over strings uses an explicit fuel equal to the string length so
    that every definition evaluates by kernel reduction.
-/

namespace CBio

/-- Role of a chat message (the JS string values user / assistant). -/
inductive Role
  | user
  | assistant
deriving DecidableEq, Repr

/-- One finalized chat message, as pushed into `session.messages`. -/
structure Message where
  role : Role
  content : String
deriving DecidableEq, Repr

/-- The data the code stores on an in-flight assistant DOM node: the
accumulated `messageDiv.rawContent` and the markdown text last handed to the
black-box renderer `marked.parse` for its content div.  `finalized` records
whether `finalizeMessage` has run on the node. -/
structure MessageDiv where
  rawContent : String
  displayedSource : String
  finalized : Bool
deriving DecidableEq, Repr

/-- WebSocket ready states.  `openState` stands for WebSocket.OPEN (the word
open is a Lean keyword). -/
inductive WsReadyState
  | connecting
  | openState
  | closing
  | closedState
deriving DecidableEq, Repr

/-- Per-session state, mirroring `sessions[sessionId]` in app.js:
`ws` (modelled by the ready state of the socket, none when `session.ws` is
null), `messages`, `pendingContent`, `isStreaming` and `currentMessageDiv`. -/
structure Session where
  wsReadyState : Option WsReadyState
  messages : List Message
  pendingContent : String
  isStreaming : Bool
  currentMessageDiv : Option MessageDiv
deriving DecidableEq, Repr

/-- Inbound server frames, one JSON object per frame with a type
discriminator, as decoded in `session.ws.onmessage`. -/
inductive ServerEvent
  | chunk (content : String)
  | tool_call (name : String)
  | done
  | error (content : String)
  | cleared
deriving DecidableEq, Repr

/-- A persisted conversation record, mirroring the objects in the global
`chatHistory` array: `\x7b id, title, timestamp, messages \x7d`.  The field the
specification calls lastUpdated is named timestamp in the source. -/
structure ChatData where
  id : String
  title : String
  timestamp : Nat
  messages : List Message
deriving DecidableEq, Repr

/-- The frame `sendMessage` transmits on the socket:
JSON.stringify of question and selected model. -/
structure Frame where
  question : String
  model : String
deriving DecidableEq, Repr

/-- Result of the send-message user action: the updated session, the value
left in the input box, and the frame transmitted on the socket (none when the
guard in `sendMessage` returns early). -/
structure SendResult where
  session : Session
  inputValue : String
  sentFrame : Option Frame
deriving DecidableEq, Repr

/-- The JS regex whitespace class for the ASCII range plus NBSP and BOM
(the characters relevant to this code). -/
def jsWhitespace (c : Char) : Bool :=
  c = ' ' || c = '\t' || c = '\n' || c = '\r' || c = '\x0b' || c = '\x0c' ||
    c = '\u00A0' || c = '\uFEFF'

/-- JS String.prototype.trim, over the whitespace class above. -/
def jsTrim (s : String) : String :=
  ⟨((s.data.dropWhile jsWhitespace).reverse.dropWhile jsWhitespace).reverse⟩

/-- Index of the first occurrence of pat in a character list (the search the
lazy regex tail performs for the closing fence), none when absent. -/
def findSubstr (pat : List Char) : List Char → Option Nat
  | [] => if pat.isPrefixOf ([] : List Char) then some 0 else none
  | c :: rest =>
    if pat.isPrefixOf (c :: rest) then some 0
    else (findSubstr pat rest).map Nat.succ

/-- Whether sub occurs as a contiguous substring of s. -/
def containsStrB (s sub : String) : Bool :=
  (findSubstr sub.data s.data).isSome

/-- Concatenation of a list of chunk payloads in arrival order. -/
def concatChunks : List String → String
  | [] => ""
  | c :: cs => c ++ concatChunks cs

/-- One character of the HTML serialization performed by
`escapeHtml` in app.js (div.textContent = text; div.innerHTML): the browser
escapes ampersand, the angle brackets and NBSP in text content. -/
def escapeHtmlChar (c : Char) : List Char :=
  if c = '&' then "&amp;".data
  else if c = '<' then "&lt;".data
  else if c = '>' then "&gt;".data
  else if c = '\u00A0' then "&nbsp;".data
  else [c]

/-- HTML text-node serialization over a character list. -/
def escapeHtmlList : List Char → List Char
  | [] => []
  | c :: cs => escapeHtmlChar c ++ escapeHtmlList cs

/-- The `escapeHtml` utility of app.js (lines 801-805). -/
def escapeHtml (text : String) : String :=
  ⟨escapeHtmlList text.data⟩

/-- Modelled from the spec: the browser parsing of character references in
text content, the inverse of the serialization that `escapeHtml` performs.
The repository treats the DOM as a black box; this models the text a user
actually sees for given markup. -/
def htmlTextDecodeAux : List Char → List Char
  | [] => []
  | '&' :: 'a' :: 'm' :: 'p' :: ';' :: rest => '&' :: htmlTextDecodeAux rest
  | '&' :: 'l' :: 't' :: ';' :: rest => '<' :: htmlTextDecodeAux rest
  | '&' :: 'g' :: 't' :: ';' :: rest => '>' :: htmlTextDecodeAux rest
  | '&' :: 'n' :: 'b' :: 's' :: 'p' :: ';' :: rest => '\u00A0' :: htmlTextDecodeAux rest
  | c :: rest => c :: htmlTextDecodeAux rest

/-- String wrapper for the character-reference decoder. -/
def htmlTextDecode (s : String) : String :=
  ⟨htmlTextDecodeAux s.data⟩

/-- The fence fix-up regex replace of app.js
(content.replace of ([^\n])```chart by the captured char, two newlines and
the fence): global, leftmost, continuing after each match.  Fuel is the list
length; each step consumes at least one character. -/
def fixFencesAux : Nat → List Char → List Char
  | 0, l => l
  | _ + 1, [] => []
  | fuel + 1, c :: rest =>
    if c != '\n' && "```chart".data.isPrefixOf rest then
      c :: '\n' :: '\n' :: ("```chart".data ++ fixFencesAux fuel (rest.drop 8))
    else
      c :: fixFencesAux fuel rest

/-- String wrapper for the fence fix-up step. -/
def fixFences (s : String) : String :=
  ⟨fixFencesAux s.data.length s.data⟩

/-- Index of the last newline in a character list, if any (the greedy
backtracking split the regex makes inside a whitespace run). -/
def lastNewlineIdx : List Char → Option Nat
  | [] => none
  | c :: rest =>
    match lastNewlineIdx rest with
    | some i => some (i + 1)
    | none => if c = '\n' then some 0 else none

/-- Attempt of the chart-block regex tail after the literal fence marker:
the regex requires a whitespace run containing a newline (greedy up to its
last newline), then lazily anything up to the first closing fence or the end
of the string.  Returns the number of characters consumed after the marker
together with whether the match ended with a closing fence. -/
def matchChartTail (t : List Char) : Option (Nat × Bool) :=
  let w := t.takeWhile jsWhitespace
  match lastNewlineIdx w with
  | none => none
  | some k =>
    let body := t.drop (k + 1)
    match findSubstr "```".data body with
    | some i => some (k + 1 + i + 3, true)
    | none => some (t.length, false)

/-- The loading placeholder markup `hideChartJsonDuringStreaming` substitutes
for a chart block; the animation delay (computed from Date.now in the source,
a cosmetic continuity value per the specification) is an explicit input. -/
def chartLoadingPlaceholder (isComplete : Bool) (animationDelay : String) : String :=
  let loadingText := if isComplete then "Rendering chart..." else "Generating chart..."
  "\n<div class=\"chart-loading\" data-chart-complete=\"" ++
    (if isComplete then "true" else "false") ++
    "\">\n    <div class=\"chart-loading-spinner\" style=\"animation-delay: " ++
    animationDelay ++
    "\"></div>\n    <span class=\"chart-loading-text\">" ++ loadingText ++
    "</span>\n</div>\n"

/-- Global replacement of every chart block by a placeholder, mirroring the
chartBlockRegex replace in `hideChartJsonDuringStreaming`: at each position,
if the fence marker starts there and its tail matches, the whole block is
replaced and scanning resumes after it; otherwise scanning advances one
character. -/
def replaceBlocksAux (delay : String) : Nat → List Char → List Char
  | 0, l => l
  | _ + 1, [] => []
  | fuel + 1, c :: rest =>
    if "```chart".data.isPrefixOf (c :: rest) then
      match matchChartTail ((c :: rest).drop 8) with
      | some (n, complete) =>
        (chartLoadingPlaceholder complete delay).data ++
          replaceBlocksAux delay fuel (((c :: rest).drop 8).drop n)
      | none => c :: replaceBlocksAux delay fuel rest
    else c :: replaceBlocksAux delay fuel rest

/-- `hideChartJsonDuringStreaming` of app.js (lines 253-294): fix improperly
formatted fences, then replace every chart block, complete or unterminated,
by a loading placeholder. -/
def hideChartJsonDuringStreaming (content : String) (delay : String) : String :=
  let fixed := fixFences content
  ⟨replaceBlocksAux delay fixed.data.length fixed.data⟩

/-- The node `addMessageToUI` creates for an empty assistant message: a fresh
div showing a typing indicator, with no rawContent stored yet (the JS property
is undefined and is lazily initialised to the empty string). -/
def newAssistantDiv : MessageDiv :=
  { rawContent := "", displayedSource := "", finalized := false }

/-- `appendToMessage` of app.js (lines 231-248): accumulate the chunk into
rawContent and hand the chart-suppressed text to the black-box markdown
renderer. -/
def appendToMessage (div : MessageDiv) (content : String) (delay : String) : MessageDiv :=
  let raw := div.rawContent ++ content
  { rawContent := raw,
    displayedSource := hideChartJsonDuringStreaming raw delay,
    finalized := false }

/-- `finalizeMessage` of app.js (lines 316-333): when rawContent is non-empty,
re-render it with the fence fix-up applied (then renderCharts and
styleDownloadLinks run on the produced markup). -/
def finalizeMessage (div : MessageDiv) : MessageDiv :=
  if div.rawContent ≠ "" then
    { div with displayedSource := fixFences div.rawContent, finalized := true }
  else div

/-- `handleWebSocketMessage` of app.js (lines 129-200), restricted to the
session state it updates.  Display-only effects on the already-finalized page
(the `finalizeMessage` call on the node that the done and error branches then
drop from the session, `showToolCall`, scrolling, `updateSendButton`,
`renderChatHistory`) and the `saveCurrentChat` persistence call of the done
branch are app- or DOM-level and are modelled separately.  The delay argument
feeds the cosmetic spinner value of `hideChartJsonDuringStreaming`. -/
def handleWebSocketMessage (session : Session) (isCurrentSession : Bool)
    (ev : ServerEvent) (delay : String) : Session :=
  match ev with
  | .chunk content =>
    let session :=
      if session.currentMessageDiv.isNone && isCurrentSession then
        { session with currentMessageDiv := some newAssistantDiv }
      else session
    let session := { session with pendingContent := session.pendingContent ++ content }
    if isCurrentSession then
      match session.currentMessageDiv with
      | some div =>
        { session with currentMessageDiv := some (appendToMessage div content delay) }
      | none => session
    else session
  | .tool_call _name =>
    if session.currentMessageDiv.isNone && isCurrentSession then
      { session with currentMessageDiv := some newAssistantDiv }
    else session
  | .done =>
    let session :=
      if session.pendingContent ≠ "" then
        { session with
            messages := session.messages ++
              [{ role := Role.assistant, content := session.pendingContent }],
            pendingContent := "" }
      else session
    { session with currentMessageDiv := none, isStreaming := false }
  | .error content =>
    let errorMsg := "**Error:** " ++ content
    let session :=
      if session.pendingContent ≠ "" then
        { session with pendingContent := session.pendingContent ++ "\n\n" ++ errorMsg }
      else { session with pendingContent := errorMsg }
    { session with currentMessageDiv := none, isStreaming := false }
  | .cleared =>
    { session with messages := [] }

/-- Processing a list of inbound frames in arrival order (the channel delivers
frames in order and each onmessage callback runs to completion). -/
def handleEvents (s : Session) (cur : Bool) (evs : List ServerEvent) (delay : String) : Session :=
  evs.foldl (fun acc ev => handleWebSocketMessage acc cur ev delay) s

/-- `sendMessage` of app.js (lines 562-586), restricted to the session state,
the input box and the transmitted frame.  The guard returns early when the
trimmed input is empty, the session is already streaming, the socket is null
or the socket is not in the OPEN ready state. -/
def sendMessage (session : Session) (inputValue : String) (selectedModel : String) : SendResult :=
  let content := jsTrim inputValue
  if content = "" ∨ session.isStreaming = true ∨ session.wsReadyState = none ∨
      session.wsReadyState ≠ some WsReadyState.openState then
    { session := session, inputValue := inputValue, sentFrame := none }
  else
    { session :=
        { session with
            messages := session.messages ++ [{ role := Role.user, content := content }],
            isStreaming := true },
      inputValue := "",
      sentFrame := some { question := content, model := selectedModel } }

/-- The title computation inside `updateChatTitle` (lines 718-719): the first
40 characters of the first user message, with an ellipsis appended when the
truncated string still has length at least 40. -/
def deriveTitle (content : String) : String :=
  let title := String.mk (content.data.take 40)
  title ++ (if title.length ≥ 40 then "..." else "")

/-- Update of the first history record with the given id (the findIndex
mutation in `updateChatTitle`). -/
def setTitleOnFirst (id : String) (title : String) : List ChatData → List ChatData
  | [] => []
  | c :: cs =>
    if c.id = id then { c with title := title } :: cs
    else c :: setTitleOnFirst id title cs

/-- `updateChatTitle` of app.js (lines 709-722): recomputed on every send from
the first user message of the current session. -/
def updateChatTitle (session : Session) (currentSessionId : String)
    (chatHistory : List ChatData) : List ChatData :=
  if session.messages = [] then chatHistory
  else
    match session.messages.find? (fun m => m.role == Role.user) with
    | none => chatHistory
    | some firstUserMessage =>
      setTitleOnFirst currentSessionId (deriveTitle firstUserMessage.content) chatHistory

/-- The title `updateChatTitle` computes for a session, when it computes one:
the derived title of the first user message. -/
def sessionTitle (session : Session) : Option String :=
  (session.messages.find? (fun m => m.role == Role.user)).map
    (fun m => deriveTitle m.content)

/-- `saveChatHistoryToStorage` of app.js (lines 763-771): keep only the first
50 records in list order, then write them to the durable store. -/
def saveChatHistoryToStorage (chatHistory : List ChatData) : List ChatData :=
  chatHistory.take 50

/-- Update of the first history record with the given id performed by
`saveCurrentChat` (lines 701-704): messages snapshot plus a refreshed
timestamp, in place, without reordering the list. -/
def setMessagesAndTimestamp (id : String) (msgs : List Message) (now : Nat) :
    List ChatData → List ChatData
  | [] => []
  | c :: cs =>
    if c.id = id then { c with messages := msgs, timestamp := now } :: cs
    else c :: setMessagesAndTimestamp id msgs now cs

/-- `saveCurrentChat` of app.js (lines 695-707) for a present session id. -/
def saveCurrentChat (session : Session) (currentSessionId : String) (now : Nat)
    (chatHistory : List ChatData) : List ChatData :=
  saveChatHistoryToStorage (setMessagesAndTimestamp currentSessionId session.messages now chatHistory)

/-- The in-flight message reconstruction `loadChat` performs after rendering
the finalized messages (lines 676-688): when the session is still streaming
with accumulated content, a fresh node whose rawContent is pendingContent and
whose markdown source is pendingContent itself — handed to marked.parse
directly, without `hideChartJsonDuringStreaming` and without the fence fix-up;
when streaming with no content yet, a bare typing-indicator node. -/
def loadChatReconstructDiv (session : Session) : Option MessageDiv :=
  if session.isStreaming = true ∧ session.pendingContent ≠ "" then
    some { rawContent := session.pendingContent,
           displayedSource := session.pendingContent,
           finalized := false }
  else if session.isStreaming = true then
    some newAssistantDiv
  else none

/-- The session-state effect of `loadChat` (lines 649-693) on the session
being switched to: restore messages from the stored record only when the
session has none, then rebuild the in-flight node. -/
def loadChatSession (session : Session) (chat : ChatData) : Session :=
  let session :=
    if session.messages = [] ∧ chat.messages ≠ [] then
      { session with messages := chat.messages }
    else session
  { session with currentMessageDiv := loadChatReconstructDiv session }

/-- The markup `addMessageToUI` (lines 203-229) places in the content div of a
user message: the escaped content string. -/
def addMessageToUIUserContent (content : String) : String :=
  escapeHtml content

/-- The text `renderChatHistory` (lines 773-790) places in the chat-title span
of a history item: the escaped title. -/
def renderChatHistoryItemTitle (chat : ChatData) : String :=
  escapeHtml chat.title

/-- A 51-entry history in which the record last in list order carries the
newest timestamp (reachable: `saveCurrentChat` refreshes the timestamp of the
loaded conversation in place, without moving it to the front). -/
def histC6 : List ChatData :=
  List.replicate 50 { id := "old", title := "t", timestamp := 1, messages := [] } ++
    [{ id := "fresh", title := "t", timestamp := 999, messages := [] }]

/-- The chunk branch changes only pendingContent (by appending the payload)
and the in-flight node; messages and the streaming flag are untouched. -/
theorem handle_chunk_state (s : Session) (cur : Bool) (c d : String) :
    (handleWebSocketMessage s cur (ServerEvent.chunk c) d).pendingContent = s.pendingContent ++ c
    ∧ (handleWebSocketMessage s cur (ServerEvent.chunk c) d).messages = s.messages
    ∧ (handleWebSocketMessage s cur (ServerEvent.chunk c) d).isStreaming = s.isStreaming := by
  cases cur <;> cases h : s.currentMessageDiv <;>
    simp [handleWebSocketMessage, h]

/-- The done branch appends the buffered turn when non-empty, always leaves
the buffer empty, and ends streaming. -/
theorem handle_done_state (s : Session) (cur : Bool) (d : String) :
    (handleWebSocketMessage s cur ServerEvent.done d).messages
      = (if s.pendingContent ≠ "" then
          s.messages ++ [{ role := Role.assistant, content := s.pendingContent }]
        else s.messages)
    ∧ (handleWebSocketMessage s cur ServerEvent.done d).pendingContent = ""
    ∧ (handleWebSocketMessage s cur ServerEvent.done d).isStreaming = false := by
  by_cases h : s.pendingContent = "" <;> simp [handleWebSocketMessage, h]

/-- Folding a list of chunk events appends the concatenation of the payloads
to pendingContent and preserves messages and the streaming flag, whether or
not the session is the visible one. -/
theorem handleEvents_chunks_state (s : Session) (cur : Bool) (d : String) (cs : List String) :
    (handleEvents s cur (cs.map ServerEvent.chunk) d).pendingContent
        = s.pendingContent ++ concatChunks cs
    ∧ (handleEvents s cur (cs.map ServerEvent.chunk) d).messages = s.messages
    ∧ (handleEvents s cur (cs.map ServerEvent.chunk) d).isStreaming = s.isStreaming := by
  induction cs generalizing s with
  | nil => simp [handleEvents, concatChunks]
  | cons c cs ih =>
    obtain ⟨h1, h2, h3⟩ := handle_chunk_state s cur c d
    obtain ⟨g1, g2, g3⟩ := ih (handleWebSocketMessage s cur (ServerEvent.chunk c) d)
    refine ⟨?_, ?_, ?_⟩ <;>
      simp only [List.map_cons, handleEvents, List.foldl_cons] at g1 g2 g3 ⊢
    · rw [g1, h1, concatChunks, String.append_assoc]
    · rw [g2, h2]
    · rw [g3, h3]

/-- The in-flight node `loadChat` installs depends only on the streaming flag
and pending buffer, which the messages-restore step does not touch. -/
theorem loadChatSession_div (s : Session) (chat : ChatData) :
    (loadChatSession s chat).currentMessageDiv = loadChatReconstructDiv s := by
  unfold loadChatSession
  split <;> rfl

/-- A match of find? in a list survives appending further elements. -/
theorem find?_append_of_found {p : Message → Bool} {l₁ : List Message} {m : Message}
    (l₂ : List Message) (h : l₁.find? p = some m) :
    (l₁ ++ l₂).find? p = some m := by
  rw [List.find?_append, h]
  rfl

/-- Decoding the serialized text of a text node recovers the original
characters. -/
theorem escapeHtmlList_decode (l : List Char) : htmlTextDecodeAux (escapeHtmlList l) = l := by
  induction l with
  | nil => rfl
  | cons c cs ih =>
    rw [escapeHtmlList]
    by_cases h1 : c = '&'
    · subst h1
      rw [escapeHtmlChar, if_pos rfl]
      show htmlTextDecodeAux ('&' :: 'a' :: 'm' :: 'p' :: ';' :: escapeHtmlList cs) = _
      rw [htmlTextDecodeAux, ih]
    · by_cases h2 : c = '<'
      · subst h2
        rw [escapeHtmlChar, if_neg (by decide), if_pos rfl]
        show htmlTextDecodeAux ('&' :: 'l' :: 't' :: ';' :: escapeHtmlList cs) = _
        rw [htmlTextDecodeAux, ih]
      · by_cases h3 : c = '>'
        · subst h3
          rw [escapeHtmlChar, if_neg (by decide), if_neg (by decide), if_pos rfl]
          show htmlTextDecodeAux ('&' :: 'g' :: 't' :: ';' :: escapeHtmlList cs) = _
          rw [htmlTextDecodeAux, ih]
        · by_cases h4 : c = '\u00A0'
          · subst h4
            rw [escapeHtmlChar, if_neg (by decide), if_neg (by decide), if_neg (by decide),
              if_pos rfl]
            show htmlTextDecodeAux ('&' :: 'n' :: 'b' :: 's' :: 'p' :: ';' :: escapeHtmlList cs) = _
            rw [htmlTextDecodeAux, ih]
          · rw [escapeHtmlChar, if_neg h1, if_neg h2, if_neg h3, if_neg h4]
            show htmlTextDecodeAux (c :: escapeHtmlList cs) = _
            rw [htmlTextDecodeAux, ih]
            all_goals intro _ hc _
            all_goals exact absurd hc h1

/-- Serialized text-node content never contains a literal opening angle
bracket, so none of it can be parsed as a tag. -/
theorem escapeHtmlList_no_lt (l : List Char) :
    (escapeHtmlList l).all (fun c => c != '<') = true := by
  induction l with
  | nil => rfl
  | cons c cs ih =>
    rw [escapeHtmlList, List.all_append, ih, Bool.and_true]
    unfold escapeHtmlChar
    by_cases h1 : c = '&'
    · rw [if_pos h1]; decide
    · by_cases h2 : c = '<'
      · rw [if_neg h1, if_pos h2]; decide
      · by_cases h3 : c = '>'
        · rw [if_neg h1, if_neg h2, if_pos h3]; decide
        · by_cases h4 : c = '\u00A0'
          · rw [if_neg h1, if_neg h2, if_neg h3, if_pos h4]; decide
          · rw [if_neg h1, if_neg h2, if_neg h3, if_neg h4]
            simp [h2]

/-- C1: for every session and every sequence of chunk events delivered
between a send and the next done event (here: starting from an empty buffer,
with a non-empty total payload), the assistant message appended to the
session messages on done equals the exact concatenation of all chunk payloads
in arrival order, no loss and no reordering, and the buffer is left empty. -/
theorem chunk_concat_finalized_on_done (s : Session) (cur : Bool) (d : String) (cs : List String)
    (h0 : s.pendingContent = "") (hne : concatChunks cs ≠ "") :
    (handleEvents s cur (cs.map ServerEvent.chunk ++ [ServerEvent.done]) d).messages
        = s.messages ++ [{ role := Role.assistant, content := concatChunks cs }]
    ∧ (handleEvents s cur (cs.map ServerEvent.chunk ++ [ServerEvent.done]) d).pendingContent
        = "" := by
  obtain ⟨hp, hm, _⟩ := handleEvents_chunks_state s cur d cs
  have hsplit : handleEvents s cur (cs.map ServerEvent.chunk ++ [ServerEvent.done]) d
      = handleWebSocketMessage (handleEvents s cur (cs.map ServerEvent.chunk) d) cur
          ServerEvent.done d := by
    simp [handleEvents, List.foldl_append]
  obtain ⟨d1, d2, _⟩ := handle_done_state (handleEvents s cur (cs.map ServerEvent.chunk) d) cur d
  rw [hsplit]
  refine ⟨?_, d2⟩
  rw [d1, hp, h0, hm]
  have hemp : "" ++ concatChunks cs = concatChunks cs := by simp
  rw [hemp]
  simp [hne]

/-- C1 witness: the chunks Hel and lo followed by done produce exactly the
assistant message Hello. -/
theorem chunk_concat_finalized_on_done_witness :
    (handleEvents
        { wsReadyState := some WsReadyState.openState, messages := [],
          pendingContent := "", isStreaming := true, currentMessageDiv := none }
        true (List.map ServerEvent.chunk ["Hel", "lo"] ++ [ServerEvent.done]) "0s").messages
      = ([] : List Message) ++ [{ role := Role.assistant, content := concatChunks ["Hel", "lo"] }]
    ∧ (handleEvents
        { wsReadyState := some WsReadyState.openState, messages := [],
          pendingContent := "", isStreaming := true, currentMessageDiv := none }
        true (List.map ServerEvent.chunk ["Hel", "lo"] ++ [ServerEvent.done]) "0s").pendingContent
      = "" :=
  chunk_concat_finalized_on_done
    { wsReadyState := some WsReadyState.openState, messages := [],
      pendingContent := "", isStreaming := true, currentMessageDiv := none }
    true "0s" ["Hel", "lo"] rfl (by decide)

/-- C2: evaluation of the error branch at the example of the specification.
Contrary to the claim, processing error after buffer Partial answer appends
the formatted notice to the buffer but does NOT finalize as done does: no
assistant message is appended to the session messages and the buffer is not
cleared; only the streaming flag is reset. -/
theorem error_event_skips_message_append_and_buffer_clear :
    handleWebSocketMessage
        { wsReadyState := some WsReadyState.openState,
          messages := [{ role := Role.user, content := "q" }],
          pendingContent := "Partial answer", isStreaming := true, currentMessageDiv := none }
        true (ServerEvent.error "rate limited") "0s"
      = { wsReadyState := some WsReadyState.openState,
          messages := [{ role := Role.user, content := "q" }],
          pendingContent := "Partial answer\n\n**Error:** rate limited",
          isStreaming := false, currentMessageDiv := none } := by
  decide

set_option maxRecDepth 20000 in
/-- C3: evaluation at a complete chart block.  The chunk-append render path
(hideChartJsonDuringStreaming) replaces the block by a chart-loading
placeholder and the raw JSON no longer occurs in the text handed to the
renderer; the view reconstructed by loadChat for a streaming session hands
pendingContent to the renderer unchanged, so the raw chart JSON does appear
there, contrary to the claim. -/
theorem loadChat_streaming_reconstruction_shows_raw_chart_json :
    (loadChatReconstructDiv
        { wsReadyState := some WsReadyState.openState, messages := [],
          pendingContent := "```chart\n\x7b\"data\":[1,2]\x7d\n```",
          isStreaming := true, currentMessageDiv := none }).map MessageDiv.displayedSource
      = some "```chart\n\x7b\"data\":[1,2]\x7d\n```"
    ∧ containsStrB "```chart\n\x7b\"data\":[1,2]\x7d\n```" "\x7b\"data\":[1,2]\x7d" = true
    ∧ containsStrB (hideChartJsonDuringStreaming "```chart\n\x7b\"data\":[1,2]\x7d\n```" "0s")
        "\x7b\"data\":[1,2]\x7d" = false
    ∧ containsStrB (hideChartJsonDuringStreaming "```chart\n\x7b\"data\":[1,2]\x7d\n```" "0s")
        "chart-loading" = true := by
  decide

/-- C4: for every streaming session, chunks processed while the session is
not visible are accumulated, and switching back reconstructs an in-flight
node whose raw text is exactly the previous buffer followed by the
concatenation of all chunks received while away; no content is dropped by
the view switch. -/
theorem switch_back_reconstructs_all_chunks (s : Session) (cs : List String) (chat : ChatData)
    (d : String) (hstream : s.isStreaming = true) :
    ∃ div,
      (loadChatSession (handleEvents s false (cs.map ServerEvent.chunk) d) chat).currentMessageDiv
        = some div
      ∧ div.rawContent = s.pendingContent ++ concatChunks cs := by
  obtain ⟨hp, hm, hs⟩ := handleEvents_chunks_state s false d cs
  rw [loadChatSession_div]
  unfold loadChatReconstructDiv
  have hst : (handleEvents s false (cs.map ServerEvent.chunk) d).isStreaming = true := by
    rw [hs, hstream]
  by_cases hpc : (handleEvents s false (cs.map ServerEvent.chunk) d).pendingContent = ""
  · rw [if_neg (by simp [hpc]), if_pos hst]
    refine ⟨newAssistantDiv, rfl, ?_⟩
    show "" = s.pendingContent ++ concatChunks cs
    rw [← hp, hpc]
  · rw [if_pos ⟨hst, hpc⟩]
    exact ⟨_, rfl, by rw [← hp]⟩

/-- C4 witness: a session away from view with buffer Hel receives the chunk
lo; switching back reconstructs the raw text Hel ++ lo. -/
theorem switch_back_reconstructs_all_chunks_witness :
    ∃ div,
      (loadChatSession
          (handleEvents
            { wsReadyState := some WsReadyState.openState,
              messages := [{ role := Role.user, content := "q" }],
              pendingContent := "Hel", isStreaming := true, currentMessageDiv := none }
            false (List.map ServerEvent.chunk ["lo"]) "0s")
          { id := "c1", title := "t", timestamp := 0, messages := [] }).currentMessageDiv
        = some div
      ∧ div.rawContent
          = ({ wsReadyState := some WsReadyState.openState,
               messages := [{ role := Role.user, content := "q" }],
               pendingContent := "Hel", isStreaming := true,
               currentMessageDiv := none } : Session).pendingContent ++ concatChunks ["lo"] :=
  switch_back_reconstructs_all_chunks
    { wsReadyState := some WsReadyState.openState,
      messages := [{ role := Role.user, content := "q" }],
      pendingContent := "Hel", isStreaming := true, currentMessageDiv := none }
    ["lo"] { id := "c1", title := "t", timestamp := 0, messages := [] } "0s" rfl

/-- C5 counterexample: for a first user message of exactly 40 characters the
computed title carries an ellipsis although nothing was truncated, refuting
ellipsis-iff-longer-than-40. -/
theorem ellipsis_at_exactly_forty_chars :
    deriveTitle (String.mk (List.replicate 40 'a'))
        = String.mk (List.replicate 40 'a') ++ "..."
    ∧ (String.mk (List.replicate 40 'a')).length = 40 := by
  decide

/-- C5 as amended: the title is the first 40 characters of the first user
message with an ellipsis appended exactly when the message has at least 40
characters (so also at exactly 40), and the title computation is stable
across subsequent turns: appending further messages leaves the first user
message, hence the computed title, unchanged. -/
theorem title_first_forty_and_stable (content : String) (s : Session) (extra : List Message)
    (m : Message) (h : s.messages.find? (fun x => x.role == Role.user) = some m) :
    deriveTitle content
        = String.mk (content.data.take 40) ++ (if 40 ≤ content.data.length then "..." else "")
    ∧ sessionTitle { s with messages := s.messages ++ extra } = sessionTitle s := by
  constructor
  · show String.mk (content.data.take 40) ++
        (if (String.mk (content.data.take 40)).length ≥ 40 then "..." else "") = _
    by_cases hl : 40 ≤ content.data.length
    · rw [if_pos hl, if_pos]
      simp only [String.length, List.length_take]
      omega
    · rw [if_neg hl, if_neg]
      simp only [String.length, List.length_take]
      omega
  · unfold sessionTitle
    simp only []
    rw [find?_append_of_found extra h, h]

/-- C5 witness: instantiation at the message hi and a later assistant
reply. -/
theorem title_first_forty_and_stable_witness :
    deriveTitle "hi"
        = String.mk ("hi".data.take 40) ++ (if 40 ≤ "hi".data.length then "..." else "")
    ∧ sessionTitle
        { wsReadyState := none,
          messages := [{ role := Role.user, content := "hi" }] ++
            [{ role := Role.assistant, content := "ok" }],
          pendingContent := "", isStreaming := false, currentMessageDiv := none }
      = sessionTitle
        { wsReadyState := none, messages := [{ role := Role.user, content := "hi" }],
          pendingContent := "", isStreaming := false, currentMessageDiv := none } :=
  title_first_forty_and_stable "hi"
    { wsReadyState := none, messages := [{ role := Role.user, content := "hi" }],
      pendingContent := "", isStreaming := false, currentMessageDiv := none }
    [{ role := Role.assistant, content := "ok" }]
    { role := Role.user, content := "hi" } (by decide)

/-- C6 counterexample: on a 51-entry history whose last record carries the
newest timestamp, the save drops exactly that newest record and keeps 50
records that are all strictly older, refuting eviction-by-oldest-lastUpdated. -/
theorem eviction_drops_newest_timestamp_entry :
    ({ id := "fresh", title := "t", timestamp := 999, messages := [] } : ChatData) ∈ histC6
    ∧ ({ id := "fresh", title := "t", timestamp := 999, messages := [] } : ChatData)
        ∉ saveChatHistoryToStorage histC6
    ∧ ∀ c ∈ saveChatHistoryToStorage histC6, c.timestamp < 999 := by
  decide

/-- C6 as amended: after every save the stored history has at most 50
records, and the kept records are an initial segment of the list in list
order (so the dropped records are exactly those beyond position 50 in list
order, which need not be those with the oldest timestamp). -/
theorem save_caps_at_fifty_and_keeps_list_order (hist : List ChatData) :
    (saveChatHistoryToStorage hist).length ≤ 50
    ∧ saveChatHistoryToStorage hist <+: hist := by
  constructor
  · simp only [saveChatHistoryToStorage, List.length_take]
    omega
  · exact ⟨hist.drop 50, by simp [saveChatHistoryToStorage]⟩

/-- C7 counterexample: the cleared server event empties the messages of a
session that still exists, refuting removal-only-by-whole-session-deletion. -/
theorem cleared_empties_messages_without_session_deletion :
    (handleWebSocketMessage
        { wsReadyState := none, messages := [{ role := Role.user, content := "hi" }],
          pendingContent := "", isStreaming := false, currentMessageDiv := none }
        true ServerEvent.cleared "0s").messages = ([] : List Message)
    ∧ ({ wsReadyState := none, messages := [{ role := Role.user, content := "hi" }],
         pendingContent := "", isStreaming := false, currentMessageDiv := none } : Session).messages
        ≠ [] := by
  decide

/-- C7 as amended: every server event other than cleared leaves the existing
messages in place as a prefix, only ever appending (chunk, tool_call and
error do not touch messages; done appends at most one assistant message);
cleared is the one event that resets them. -/
theorem server_events_append_only_except_cleared (s : Session) (cur : Bool) (ev : ServerEvent)
    (d : String) (h : ev ≠ ServerEvent.cleared) :
    s.messages <+: (handleWebSocketMessage s cur ev d).messages := by
  cases ev with
  | chunk c => rw [(handle_chunk_state s cur c d).2.1]
  | tool_call name =>
    cases cur <;> cases hd : s.currentMessageDiv <;> simp [handleWebSocketMessage, hd]
  | done =>
    rw [(handle_done_state s cur d).1]
    by_cases hpc : s.pendingContent = "" <;> simp [hpc]
  | error c =>
    by_cases hpc : s.pendingContent = "" <;> simp [handleWebSocketMessage, hpc]
  | cleared => exact absurd rfl h

/-- C7 witness: instantiation at a session with one message and the done
event. -/
theorem server_events_append_only_except_cleared_witness :
    ({ wsReadyState := none, messages := [{ role := Role.user, content := "hi" }],
       pendingContent := "buf", isStreaming := true, currentMessageDiv := none } : Session).messages
      <+: (handleWebSocketMessage
            { wsReadyState := none, messages := [{ role := Role.user, content := "hi" }],
              pendingContent := "buf", isStreaming := true, currentMessageDiv := none }
            true ServerEvent.done "0s").messages :=
  server_events_append_only_except_cleared
    { wsReadyState := none, messages := [{ role := Role.user, content := "hi" }],
      pendingContent := "buf", isStreaming := true, currentMessageDiv := none }
    true ServerEvent.done "0s" (by decide)

/-- C8: evaluation of the error branch on a streaming session with an empty
buffer.  After the event the streaming flag is false while the buffer holds
the non-empty error notice, refuting the invariant that the buffer is empty
whenever streaming is false. -/
theorem error_leaves_nonempty_buffer_with_streaming_false :
    (handleWebSocketMessage
        { wsReadyState := none, messages := [], pendingContent := "",
          isStreaming := true, currentMessageDiv := none }
        false (ServerEvent.error "boom") "0s").isStreaming = false
    ∧ (handleWebSocketMessage
        { wsReadyState := none, messages := [], pendingContent := "",
          isStreaming := true, currentMessageDiv := none }
        false (ServerEvent.error "boom") "0s").pendingContent = "**Error:** boom" := by
  decide

/-- C9: when the channel of the session is not in the open state (null socket
or any other ready state), the send-message action is a no-op: the session is
returned unchanged, the input box keeps its value and no frame is
transmitted. -/
theorem sendMessage_noop_when_channel_not_open (s : Session) (input model : String)
    (h : s.wsReadyState ≠ some WsReadyState.openState) :
    sendMessage s input model = { session := s, inputValue := input, sentFrame := none } := by
  unfold sendMessage
  rw [if_pos (Or.inr (Or.inr (Or.inr h)))]

/-- C9 witness: instantiation at a closed socket and the input hello. -/
theorem sendMessage_noop_when_channel_not_open_witness :
    sendMessage
        { wsReadyState := some WsReadyState.closedState, messages := [],
          pendingContent := "", isStreaming := false, currentMessageDiv := none }
        "hello" "GPT-OSS-120B"
      = { session :=
            { wsReadyState := some WsReadyState.closedState, messages := [],
              pendingContent := "", isStreaming := false, currentMessageDiv := none },
          inputValue := "hello", sentFrame := none } :=
  sendMessage_noop_when_channel_not_open
    { wsReadyState := some WsReadyState.closedState, messages := [],
      pendingContent := "", isStreaming := false, currentMessageDiv := none }
    "hello" "GPT-OSS-120B" (by decide)

/-- C10: the content rendered for a user message is the HTML-escaped form of
the user string; decoding the escaped markup as text recovers exactly the
original string (the displayed text equals the input), the escaped markup
contains no opening angle bracket (so none of the input is interpreted as
markup), and the history list applies the same escaping to conversation
titles. -/
theorem user_content_and_titles_html_escaped (s : String) (chat : ChatData) :
    addMessageToUIUserContent s = escapeHtml s
    ∧ htmlTextDecode (escapeHtml s) = s
    ∧ (escapeHtml s).data.all (fun c => c != '<') = true
    ∧ renderChatHistoryItemTitle chat = escapeHtml chat.title := by
  refine ⟨rfl, ?_, ?_, rfl⟩
  · show String.mk (htmlTextDecodeAux (escapeHtmlList s.data)) = s
    rw [escapeHtmlList_decode]
  · exact escapeHtmlList_no_lt s.data

end CBio
